import Mathlib

/-!
Shallow embedding of the LiteX-M2SDR gateware composition script
(litex_m2sdr.py) and of the clock-domain-crossing primitives it
instantiates, together with proofs of the specified properties.

The file has two parts:

* a static model of SoC composition (`composeBaseSoC`): which backends,
  registers, and timing-constraint declarations are produced at
  elaboration time for a given set of arguments;

* a cycle-accurate dynamic model of one `ClkMeasurement` instance: a
  free-running 64-bit counter in its own clock domain, a pulse
  synchronizer carrying the latch request from the `sys` domain into the
  counter domain, a two-stage multi-bit transfer carrying the latched
  value back, and an asynchronous reset synchronizer.  Clock asynchrony
  is modelled by an arbitrary interleaving of `sys`-domain and
  counter-domain clock edges.
-/

/-! ## Static composition model -/

/-- Kind of timing-exception declaration handed to the toolchain. -/
inductive TimingRel where
  | falsePath
  | asynchronous
deriving DecidableEq

/-- One emitted timing-exception declaration, naming a pair of clocks. -/
structure TimingConstraint where
  clk_a : String
  clk_b : String
  rel   : TimingRel
deriving DecidableEq

/-- Whether a declaration names the (unordered) clock pair x, y. -/
def constraintMentions (c : TimingConstraint) (x y : String) : Bool :=
  (c.clk_a == x && c.clk_b == y) || (c.clk_a == y && c.clk_b == x)

/-- Clock name of PCIe PHY output clock i, as used in the source's
set_clock_groups commands (lines 148-151). -/
def pcieClkoutName (i : Nat) : String := "s7pciephy_clkout" ++ toString i

/-- JTAGBone false-path constraint, from source line 103:
add_false_path_constraints(jtagbone_phy.cd_jtag.clk, crg.cd_sys.clk). -/
def jtagConstraints : List TimingConstraint :=
  [ { clk_a := "jtag_clk", clk_b := "sys_clk", rel := TimingRel.falsePath } ]

/-- PCIe asynchronous clock-group constraints, from source lines 148-151:
for i in range(4), three set_clock_groups -asynchronous commands pairing
s7pciephy_clkout i with dna_clk, jtag_clk and icap_clk. -/
def pcieConstraints : List TimingConstraint :=
  (List.range 4).flatMap (fun i =>
    [ { clk_a := pcieClkoutName i, clk_b := "dna_clk",  rel := TimingRel.asynchronous },
      { clk_a := pcieClkoutName i, clk_b := "jtag_clk", rel := TimingRel.asynchronous },
      { clk_a := pcieClkoutName i, clk_b := "icap_clk", rel := TimingRel.asynchronous } ])

/-- Access kind of a control-domain register. -/
inductive CSRAccess where
  | writeStrobe
  | readOnly
deriving DecidableEq

/-- One control-domain register published by a module. -/
structure CSRReg where
  name   : String
  access : CSRAccess
  width  : Nat
deriving DecidableEq

/-- The registers published by one ClkMeasurement instance, from source
lines 182-183: self.latch = CSR() (write strobe, width 1) and
self.value = CSRStatus(64) (read-only, 64 bits). -/
def clkMeasurementCSRs : List CSRReg :=
  [ { name := "latch", access := CSRAccess.writeStrobe, width := 1 },
    { name := "value", access := CSRAccess.readOnly,   width := 64 } ]

/-- Static description of one ClkMeasurement instance. -/
structure ClkMeasurementInst where
  clk_name  : String
  increment : Nat
  csrs      : List CSRReg
deriving DecidableEq

/-- Elaborate one ClkMeasurement (source lines 180-202): its measured
clock, counter increment, and published registers. -/
def mkClkMeasurement (clk : String) (increment : Nat) : ClkMeasurementInst :=
  { clk_name := clk, increment := increment, csrs := clkMeasurementCSRs }

/-- The four instances created at source lines 204-207, all with the
default increment of 1. -/
def clkMeasurements : List ClkMeasurementInst :=
  [ mkClkMeasurement "si5351_clk0" 1, mkClkMeasurement "si5351_clk1" 1,
    mkClkMeasurement "si5351_clk2" 1, mkClkMeasurement "si5351_clk3" 1 ]

/-- Name of the private counter clock domain a ClkMeasurement creates for
its measured clock (source lines 188-189). -/
def counterDomainName (clk : String) : String := clk ++ "_counter"

/-- Domain pairs crossed by a synchronizer instantiated in this file:
each ClkMeasurement crosses sys and its counter domain with a
PulseSynchronizer("sys", "counter") (line 198) and a MultiReg back into
sys (line 202). -/
def synchronizerCrossedPairs : List (String × String) :=
  clkMeasurements.map (fun m => ("sys_clk", counterDomainName m.clk_name))

/-- PCIe PHY/DMA configuration, from source lines 125-145. -/
structure PcieConfig where
  lanes                 : Nat
  data_width            : Nat
  bar0_size             : Nat
  address_width         : Nat
  ndmas                 : Nat
  with_dma_buffering    : Bool
  dma_buffering_depth   : Nat
  with_dma_loopback     : Bool
  with_dma_synchronizer : Bool
  with_msi              : Bool
deriving DecidableEq

/-- Ethernet/Etherbone configuration, from source lines 154-176. -/
structure EthernetConfig where
  sfp         : Nat
  rx_polarity : Nat
  tx_polarity : Nat
  ip_address  : String
deriving DecidableEq

/-- Arguments of BaseSoC.__init__ (source line 77), with its defaults
captured by defaultSoCArgs. -/
structure SoCArgs where
  sys_clk_freq  : Nat
  with_pcie     : Bool
  pcie_lanes    : Nat
  with_ethernet : Bool
  ethernet_sfp  : Nat
  with_jtagbone : Bool
deriving DecidableEq

/-- The default arguments of BaseSoC.__init__: note that both with_pcie
and with_ethernet default to True (source line 77). -/
def defaultSoCArgs : SoCArgs :=
  { sys_clk_freq := 125000000, with_pcie := true, pcie_lanes := 1,
    with_ethernet := true, ethernet_sfp := 0, with_jtagbone := true }

/-- Result of composing the SoC: which backends are active, the emitted
timing declarations, and the clock-measurement instances. -/
structure SoCConfig where
  pcie             : Option PcieConfig
  ethernet         : Option EthernetConfig
  constraints      : List TimingConstraint
  clk_measurements : List ClkMeasurementInst
deriving DecidableEq

/-- The lane-count to bus-data-width table of source line 126:
a dict with keys 1 and 4 only. -/
def pcieDataWidth (lanes : Nat) : Option Nat :=
  if lanes = 1 then some 64 else if lanes = 4 then some 128 else none

/-- PCIe configuration actually composed (source lines 125-145):
bar0_size 0x20000, add_pcie with address_width 32, ndmas 1, DMA
buffering enabled with depth 8192, loopback, synchronizer and MSI. -/
def mkPcieConfig (lanes w : Nat) : PcieConfig :=
  { lanes := lanes, data_width := w, bar0_size := 0x20000, address_width := 32,
    ndmas := 1, with_dma_buffering := true, dma_buffering_depth := 8192,
    with_dma_loopback := true, with_dma_synchronizer := true, with_msi := true }

/-- Ethernet configuration actually composed (source lines 169-176):
rx_polarity 1, tx_polarity 0, Etherbone at 192.168.1.50. -/
def ethOpt (args : SoCArgs) : Option EthernetConfig :=
  if args.with_ethernet then
    some { sfp := args.ethernet_sfp, rx_polarity := 1, tx_polarity := 0,
           ip_address := "192.168.1.50" }
  else none

/-- Composition-time elaboration of BaseSoC.__init__ (source lines
77-207).  The only failing step is the dict lookup
\x7b1: 64, 4: 128\x7d[pcie_lanes] at line 126, which raises KeyError for any
other lane count; nothing else in __init__ checks or rejects its
arguments — in particular both backends compose together without any
exclusivity check. -/
def composeBaseSoC (args : SoCArgs) : Except String SoCConfig :=
  if args.with_pcie then
    match pcieDataWidth args.pcie_lanes with
    | none => Except.error "KeyError: pcie_lanes"
    | some w =>
        Except.ok
          { pcie := some (mkPcieConfig args.pcie_lanes w),
            ethernet := ethOpt args,
            constraints := (if args.with_jtagbone then jtagConstraints else []) ++ pcieConstraints,
            clk_measurements := clkMeasurements }
  else
    Except.ok
      { pcie := none,
        ethernet := ethOpt args,
        constraints := (if args.with_jtagbone then jtagConstraints else []),
        clk_measurements := clkMeasurements }

/-- True when an Except value is a success. -/
def exceptOk {ε α : Type} (r : Except ε α) : Bool :=
  match r with
  | Except.ok _ => true
  | Except.error _ => false

/-- The error message of an Except value, when it is a failure. -/
def exceptErr {α : Type} (r : Except String α) : Option String :=
  match r with
  | Except.ok _ => none
  | Except.error e => some e

/-- Total accessor: the composed SoC, or an empty placeholder on error. -/
def composedOrEmpty (r : Except String SoCConfig) : SoCConfig :=
  match r with
  | Except.ok cfg => cfg
  | Except.error _ =>
      { pcie := none, ethernet := none, constraints := [], clk_measurements := [] }

/-- The SoC composed with BaseSoC's default arguments. -/
def defaultSoC : SoCConfig := composedOrEmpty (composeBaseSoC defaultSoCArgs)

/-- Modelled from the spec: the command-line mutually exclusive group of
source lines 220-222 (argparse add_mutually_exclusive_group), whose
documented behaviour is to reject a command line passing both
--with-pcie and --with-ethernet before any SoC is constructed. -/
def parseComOpts (withPcie withEthernet : Bool) : Except String (Bool × Bool) :=
  if withPcie && withEthernet then
    Except.error "argument --with-ethernet: not allowed with argument --with-pcie"
  else
    Except.ok (withPcie, withEthernet)

/-! ## Dynamic model of one ClkMeasurement instance

The pulse synchronizer, multi-bit transfer and asynchronous reset
synchronizer are library primitives instantiated by the source (lines
190, 198, 202); their register structure is modelled from the spec
(sections 4.1-4.3). -/

/-- Modelled from the spec: the toggle-and-re-edge-detect pulse
synchronizer of section 4.2 (the PulseSynchronizer instantiated at
source line 198).  A source-domain toggle flip-flop flips on each input
pulse; the toggle is carried through a two-stage synchronizer into the
destination domain, where an extra register and an exclusive-or
re-derive a single-cycle pulse. -/
structure PulseSyncState where
  toggle_i   : Bool
  sync1      : Bool
  sync2      : Bool
  toggle_o_r : Bool
deriving DecidableEq

/-- Power-on state of the pulse synchronizer. -/
def psInit : PulseSyncState := ⟨false, false, false, false⟩

/-- Source-domain clock edge with input pulse i: the toggle flips
exactly when i is asserted. -/
def psSrcEdge (i : Bool) (s : PulseSyncState) : PulseSyncState :=
  { s with toggle_i := xor s.toggle_i i }

/-- The destination-domain output pulse, combinational: exclusive-or of
the synchronized toggle and its one-cycle-delayed copy. -/
def psOut (s : PulseSyncState) : Bool := xor s.sync2 s.toggle_o_r

/-- Destination-domain clock edge: the two synchronizer stages and the
re-edge-detect register all shift. -/
def psDstEdge (s : PulseSyncState) : PulseSyncState :=
  { s with sync1 := s.toggle_i, sync2 := s.sync1, toggle_o_r := s.sync2 }

/-- The synchronizer is settled: every destination-side register agrees
with the source toggle, so no pulse is in flight. -/
def psSettled (s : PulseSyncState) : Prop :=
  s.sync1 = s.toggle_i ∧ s.sync2 = s.toggle_i ∧ s.toggle_o_r = s.toggle_i

/-- Iterated destination-domain clock edges. -/
def psDstIter : Nat → PulseSyncState → PulseSyncState
  | 0, s => s
  | Nat.succ k, s => psDstIter k (psDstEdge s)

/-- Number of destination edges, among the next k, at which the output
pulse is asserted (no further source activity). -/
def psCount : Nat → PulseSyncState → Nat
  | 0, _ => 0
  | Nat.succ k, s => (if psOut s then 1 else 0) + psCount k (psDstEdge s)

/-- Full state of one ClkMeasurement instance (source lines 180-202):
the pulse synchronizer, the two flops of the asynchronous reset
synchronizer (modelled from the spec, section 4.1; source line 190),
the free-running counter and the counter-domain holding register
latch_value (lines 193-201), and the two stages mr1, mr2 of the
MultiReg transfer into the sys domain (modelled from the spec, section
4.3; source line 202) — mr2 is what the value CSR returns. -/
structure MeasState where
  ps          : PulseSyncState
  ars1        : Bool
  ars2        : Bool
  counter     : Nat
  latch_value : Nat
  mr1         : Nat
  mr2         : Nat
deriving DecidableEq

/-- Power-on state of a ClkMeasurement instance. -/
def measInit : MeasState := ⟨psInit, false, false, 0, 0, 0, 0⟩

/-- sys-domain clock edge: re is the latch CSR write strobe (latch.re,
line 200) feeding the pulse synchronizer input; the two MultiReg stages
shift, sampling the full latch_value vector. -/
def sysEdge (re : Bool) (m : MeasState) : MeasState :=
  { m with ps := psSrcEdge re m.ps, mr1 := m.latch_value, mr2 := m.mr1 }

/-- The counter-domain reset as observed at a counter clock edge:
asserted combinationally whenever the reset source is high (asynchronous
assertion), and synchronously while the second reset-synchronizer flop
is still high. -/
def measRst (rst_src : Bool) (m : MeasState) : Bool := rst_src || m.ars2

/-- Counter-domain clock edge with reset source rst_src.  The reset
synchronizer flops preset asynchronously on rst_src and shift a zero
through otherwise; the pulse-synchronizer destination registers are
reset-less and always shift; the counter increments by the fixed step
modulo 2^64 (a 64-bit signal, line 193) unless reset; latch_value
captures the counter exactly when the synchronized pulse is asserted
(line 201), unless reset. -/
def ctrEdge (inc : Nat) (rst_src : Bool) (m : MeasState) : MeasState :=
  { m with
    ps          := psDstEdge m.ps,
    ars1        := if rst_src then true else false,
    ars2        := if rst_src then true else m.ars1,
    counter     := if measRst rst_src m then 0 else (m.counter + inc) % 2 ^ 64,
    latch_value := if measRst rst_src m then 0
                   else if psOut m.ps then m.counter else m.latch_value }

/-- One interleaving event: a sys-domain edge (with latch strobe) or a
counter-domain edge (with reset source level).  Asynchrony of the two
clocks is modelled by quantifying over all interleavings. -/
inductive MeasStep where
  | sys (re : Bool)
  | ctr (rst_src : Bool)
deriving DecidableEq

/-- Apply one event. -/
def measStep (inc : Nat) (st : MeasStep) (m : MeasState) : MeasState :=
  match st with
  | MeasStep.sys re => sysEdge re m
  | MeasStep.ctr rst_src => ctrEdge inc rst_src m

/-- Run a whole event trace. -/
def measRun (inc : Nat) : List MeasStep → MeasState → MeasState
  | [], m => m
  | st :: rest, m => measRun inc rest (measStep inc st m)

/-- True when the event is a sys-domain edge. -/
def isSysStep : MeasStep → Bool
  | MeasStep.sys _ => true
  | MeasStep.ctr _ => false

/-- True when the trace contains only sys-domain edges, i.e. the
measured clock is absent or stopped for the whole trace. -/
def sysOnly (tr : List MeasStep) : Bool := tr.all isSysStep

/-! ### Refined per-bit model of the value transfer

The word-level model above lets every sys edge capture the whole 64-bit
latch_value at once.  Spec section 4.3 is explicit that the MultiReg
transfer is sampled independently per bit with no bit-level atomicity:
when the source word changes inside a destination sampling window, each
destination bit may resolve to the old or the new content on its own.
The events below refine the model accordingly; sys and ctr events
coincide with sysEdge and ctrEdge, and a race event is a counter edge
landing inside a sys sampling window, with an adversarial per-bit
choice. -/

/-- Modelled from the spec: per-bit selection for the non-atomic
multi-bit transfer of section 4.3.  Bit i of the result comes from b
where mask has bit i set, and from a elsewhere. -/
def mixBits (a b mask : Nat) : Nat := a ^^^ ((a ^^^ b) &&& mask)

/-- Modelled from the spec: a counter-domain clock edge landing inside
the sampling window of a sys-domain edge (section 4.3).  Both domains
step as in ctrEdge and sysEdge, but the first MultiReg stage captures,
per bit and adversarially (mask), either the pre-edge or the post-edge
content of latch_value. -/
def raceEdge (inc : Nat) (re rst_src : Bool) (mask : Nat) (m : MeasState) : MeasState :=
  let mc := ctrEdge inc rst_src m
  { mc with
    ps  := psSrcEdge re mc.ps,
    mr1 := mixBits m.latch_value mc.latch_value mask,
    mr2 := m.mr1 }

/-- One event of the refined per-bit model: a sys edge, a counter edge,
or a coincident pair of edges racing on the value transfer. -/
inductive BitStep where
  | sys (re : Bool)
  | ctr (rst_src : Bool)
  | race (re rst_src : Bool) (mask : Nat)
deriving DecidableEq

/-- Apply one refined event. -/
def bitStep (inc : Nat) (st : BitStep) (m : MeasState) : MeasState :=
  match st with
  | BitStep.sys re => sysEdge re m
  | BitStep.ctr rst_src => ctrEdge inc rst_src m
  | BitStep.race re rst_src mask => raceEdge inc re rst_src mask m

/-- Run a refined event trace. -/
def bitRun (inc : Nat) : List BitStep → MeasState → MeasState
  | [], m => m
  | st :: rest, m => bitRun inc rest (bitStep inc st m)

/-- True when the event makes the MultiReg stages sample (a sys edge,
alone or coincident with a counter edge). -/
def isSamplingStep : BitStep → Bool
  | BitStep.sys _ => true
  | BitStep.ctr _ => false
  | BitStep.race _ _ _ => true

/-- True when the event does not assert the reset source. -/
def noResetStep : BitStep → Bool
  | BitStep.sys _ => true
  | BitStep.ctr rst_src => !rst_src
  | BitStep.race _ rst_src _ => !rst_src

/-- Number of disturbances of the holding register an event can cause:
a counter or coincident edge at which reset is observed or the
synchronized latch pulse arrives. -/
def stepDisturb (st : BitStep) (m : MeasState) : Nat :=
  match st with
  | BitStep.sys _ => 0
  | BitStep.ctr rst_src => if measRst rst_src m || psOut m.ps then 1 else 0
  | BitStep.race _ rst_src _ => if measRst rst_src m || psOut m.ps then 1 else 0

/-- Total disturbances of the holding register along a trace: zero
exactly when latch_value is stable throughout — section 4.3's stability
precondition for the transfer window. -/
def latchDisturb (inc : Nat) : List BitStep → MeasState → Nat
  | [], _ => 0
  | st :: rest, m => stepDisturb st m + latchDisturb inc rest (bitStep inc st m)

/-- Every complete value the holding register latch_value takes along a
refined trace (including the initial one). -/
def bitLatchHistory (inc : Nat) : List BitStep → MeasState → List Nat
  | [], m => [m.latch_value]
  | st :: rest, m => m.latch_value :: bitLatchHistory inc rest (bitStep inc st m)

/-- The counter value captured by the most recent latch-pulse arrival of
the trace, when there is one: later events take precedence. -/
def lastLatch (inc : Nat) : List BitStep → MeasState → Option Nat
  | [], _ => none
  | st :: rest, m =>
      match lastLatch inc rest (bitStep inc st m) with
      | some v => some v
      | none =>
          match st with
          | BitStep.sys _ => none
          | BitStep.ctr rst_src =>
              if (!(measRst rst_src m)) && psOut m.ps then some m.counter else none
          | BitStep.race _ rst_src _ =>
              if (!(measRst rst_src m)) && psOut m.ps then some m.counter else none

/-- Number of counter-domain edges, among the next k (reset source low),
at which the latch_value update If(latch_sync.o, ...) of source line 201
actually fires. -/
def latchWrites (inc : Nat) : Nat → MeasState → Nat
  | 0, _ => 0
  | Nat.succ k, m =>
      (if (!(measRst false m) && psOut m.ps) then 1 else 0) +
        latchWrites inc k (ctrEdge inc false m)

/-! ## Theorems: static composition claims -/

/-- C1 counterexample: composing BaseSoC with its default arguments —
which request both the PCIe and the Ethernet backend simultaneously
(with_pcie=True, with_ethernet=True, source line 77) — does not fail at
compose time: it succeeds and activates both backend configurations at
once.  This falsifies the claim that composition fails fast and that at
most one backend configuration is ever active. -/
theorem C1_both_backends_compose :
    defaultSoCArgs.with_pcie = true ∧
    defaultSoCArgs.with_ethernet = true ∧
    exceptOk (composeBaseSoC defaultSoCArgs) = true ∧
    defaultSoC.pcie.isSome = true ∧
    defaultSoC.ethernet.isSome = true := by
  decide

/-- C1 amended: mutual exclusivity of the two backends is enforced only
at the command-line layer — argparse's mutually exclusive group (source
lines 220-222) rejects a command line passing both flags, before any SoC
is composed, and accepts every other combination — while
BaseSoC.__init__ itself performs no exclusivity check and, when called
with both with_pcie and with_ethernet true (its defaults), composes both
backends. -/
theorem C1_cli_exclusivity :
    exceptErr (parseComOpts true true) =
      some "argument --with-ethernet: not allowed with argument --with-pcie" ∧
    exceptOk (parseComOpts true false) = true ∧
    exceptOk (parseComOpts false true) = true ∧
    exceptOk (parseComOpts false false) = true ∧
    exceptOk (composeBaseSoC defaultSoCArgs) = true ∧
    defaultSoC.pcie.isSome = true ∧
    defaultSoC.ethernet.isSome = true := by
  decide

/-- C4 counterexample: the pair (sys, si5351_clk0 counter domain) is
crossed by a synchronizer instantiated in this file (the
PulseSynchronizer of source line 198 and the MultiReg of line 202), yet
the emitted constraint set of the default composition contains no
asynchronous or false-path declaration naming that pair — a
synchronizer-crossed pair is missing from the set. -/
theorem C4_missing_pair :
    exceptOk (composeBaseSoC defaultSoCArgs) = true ∧
    ("sys_clk", counterDomainName "si5351_clk0") ∈ synchronizerCrossedPairs ∧
    defaultSoC.constraints.all
      (fun c => !(constraintMentions c "sys_clk" (counterDomainName "si5351_clk0"))) = true := by
  decide

/-- C4 amended: the constraint set emitted by this file consists of
exactly the jtag/sys false path (line 103) followed by the twelve PCIe
clkout asynchronous declarations (lines 148-151); no two of its entries
name the same clock pair (no duplicates), but the sys/counter domain
pairs crossed by the ClkMeasurement synchronizers receive no declaration
at all in this set. -/
theorem C4_emitted_constraints :
    defaultSoC.constraints = jtagConstraints ++ pcieConstraints ∧
    defaultSoC.constraints.length = 13 ∧
    List.Pairwise (fun c d => constraintMentions d c.clk_a c.clk_b = false)
      defaultSoC.constraints ∧
    defaultSoC.constraints.all (fun c =>
      clkMeasurements.all
        (fun m => !(constraintMentions c "sys_clk" (counterDomainName m.clk_name)))) = true := by
  decide

/-- C8: whenever composition succeeds with the PCIe backend present, the
PHY bus data width is keyed off the lane count — 64 bits for 1 lane and
128 bits for 4 lanes — and DMA buffering is enabled with a depth of 8192
descriptors, which is a power of two (2^13). -/
theorem C8_pcie_config (args : SoCArgs) (soc : SoCConfig) (p : PcieConfig)
    (hc : composeBaseSoC args = Except.ok soc) (hp : soc.pcie = some p) :
    (args.pcie_lanes = 1 → p.data_width = 64) ∧
    (args.pcie_lanes = 4 → p.data_width = 128) ∧
    p.with_dma_buffering = true ∧
    p.dma_buffering_depth = 8192 ∧
    p.dma_buffering_depth = 2 ^ 13 := by
  cases hpc : args.with_pcie with
  | false =>
      simp only [composeBaseSoC, hpc, Bool.false_eq_true, if_false, Except.ok.injEq] at hc
      subst hc
      simp at hp
  | true =>
      cases hw : pcieDataWidth args.pcie_lanes with
      | none =>
          simp only [composeBaseSoC, hpc, if_true, hw] at hc
          simp at hc
      | some w =>
          simp only [composeBaseSoC, hpc, if_true, hw, Except.ok.injEq] at hc
          subst hc
          simp only [Option.some.injEq] at hp
          subst hp
          refine ⟨?_, ?_, rfl, rfl, rfl⟩
          · intro h1
            rw [h1] at hw
            simp [pcieDataWidth] at hw
            simp [mkPcieConfig, hw]
          · intro h4
            rw [h4] at hw
            simp [pcieDataWidth] at hw
            simp [mkPcieConfig, hw]

/-- C8 witness: the default composition (PCIe, 1 lane) instantiates the
theorem. -/
theorem C8_pcie_config_witness :
    (defaultSoCArgs.pcie_lanes = 1 → (mkPcieConfig 1 64).data_width = 64) ∧
    (defaultSoCArgs.pcie_lanes = 4 → (mkPcieConfig 1 64).data_width = 128) ∧
    (mkPcieConfig 1 64).with_dma_buffering = true ∧
    (mkPcieConfig 1 64).dma_buffering_depth = 8192 ∧
    (mkPcieConfig 1 64).dma_buffering_depth = 2 ^ 13 :=
  C8_pcie_config defaultSoCArgs defaultSoC (mkPcieConfig 1 64) rfl rfl

/-- C9: every ClkMeasurement instance publishes exactly two
control-domain registers — a write-triggered latch strobe and a 64-bit
read-only value register — and this holds for all four instantiated
measurements, si5351_clk0 through si5351_clk3. -/
theorem C9_two_registers :
    clkMeasurementCSRs.length = 2 ∧
    clkMeasurementCSRs =
      [ { name := "latch", access := CSRAccess.writeStrobe, width := 1 },
        { name := "value", access := CSRAccess.readOnly,   width := 64 } ] ∧
    defaultSoC.clk_measurements.map ClkMeasurementInst.csrs =
      [clkMeasurementCSRs, clkMeasurementCSRs, clkMeasurementCSRs, clkMeasurementCSRs] ∧
    defaultSoC.clk_measurements.map ClkMeasurementInst.clk_name =
      ["si5351_clk0", "si5351_clk1", "si5351_clk2", "si5351_clk3"] := by
  decide

/-- C10: composing BaseSoC with with_pcie=True and any lane count other
than 1 or 4 fails at compose time with the lookup error of the
lane-count to data-width table (source line 126); no SoC configuration
— in particular no PCIe logic — is produced. -/
theorem C10_bad_lanes (args : SoCArgs) (h : args.with_pcie = true)
    (h1 : args.pcie_lanes ≠ 1) (h4 : args.pcie_lanes ≠ 4) :
    composeBaseSoC args = Except.error "KeyError: pcie_lanes" := by
  have hw : pcieDataWidth args.pcie_lanes = none := by
    rw [pcieDataWidth, if_neg h1, if_neg h4]
  simp [composeBaseSoC, h, hw]

/-- Arguments requesting PCIe with 2 lanes. -/
def badLaneArgs : SoCArgs := { defaultSoCArgs with pcie_lanes := 2 }

/-- C10 witness: 2 lanes is rejected at compose time. -/
theorem C10_bad_lanes_witness :
    composeBaseSoC badLaneArgs = Except.error "KeyError: pcie_lanes" :=
  C10_bad_lanes badLaneArgs rfl (by decide) (by decide)

/-! ## Theorems: counter and reset (C5, C6) -/

/-- C5: on every counter-domain clock edge taken out of reset, the
64-bit free-running counter steps by the fixed increment modulo 2^64;
sys-domain edges (the only other events) never modify it. -/
theorem C5_counter_increment (inc : Nat) (rst_src : Bool) (m : MeasState) (re : Bool)
    (h : measRst rst_src m = false) :
    (ctrEdge inc rst_src m).counter = (m.counter + inc) % 2 ^ 64 ∧
    (sysEdge re m).counter = m.counter := by
  constructor
  · simp [ctrEdge, h]
  · rfl

/-- C5 witness: one out-of-reset counter edge from the power-on state. -/
theorem C5_counter_increment_witness :
    (ctrEdge 1 false measInit).counter = (measInit.counter + 1) % 2 ^ 64 ∧
    (sysEdge true measInit).counter = measInit.counter :=
  C5_counter_increment 1 false measInit true (by decide)

/-- C6: the asynchronous reset synchronizer asserts the domain reset
immediately (combinationally) whenever the reset source is high; and
after an edge with the source high, once the source clears, the domain
reset is still observed asserted at each of the next 2 counter-domain
edges, de-asserting only at the third. -/
theorem C6_reset_synchronizer :
    (∀ (m : MeasState), measRst true m = true) ∧
    (∀ (inc : Nat) (m : MeasState),
      measRst false (ctrEdge inc true m) = true ∧
      measRst false (ctrEdge inc false (ctrEdge inc true m)) = true ∧
      measRst false (ctrEdge inc false (ctrEdge inc false (ctrEdge inc true m))) = false) :=
  ⟨fun _ => rfl, fun _ _ => ⟨rfl, rfl, rfl⟩⟩

/-! ## Theorems: stopped measured clock (C7) -/

/-- Running a trace splits over append. -/
theorem measRun_append (inc : Nat) (t1 t2 : List MeasStep) (m : MeasState) :
    measRun inc (t1 ++ t2) m = measRun inc t2 (measRun inc t1 m) := by
  induction t1 generalizing m with
  | nil => rfl
  | cons st rest ih => simp [measRun, ih]

/-- Without counter-domain edges, the counter and the holding register
are frozen. -/
theorem sysOnly_frozen (inc : Nat) (tr : List MeasStep) (m : MeasState)
    (h : sysOnly tr = true) :
    (measRun inc tr m).counter = m.counter ∧
    (measRun inc tr m).latch_value = m.latch_value := by
  induction tr generalizing m with
  | nil => exact ⟨rfl, rfl⟩
  | cons st rest ih =>
    cases st with
    | sys re =>
        have h' : sysOnly rest = true := by
          simpa [sysOnly, isSysStep] using h
        simpa [measRun, measStep, sysEdge] using ih (sysEdge re m) h'
    | ctr b => simp [sysOnly, isSysStep] at h

/-- Without counter-domain edges, once both MultiReg stages hold the
(frozen) latch_value they keep holding it. -/
theorem sysOnly_mr_settled (inc : Nat) (tr : List MeasStep) (m : MeasState)
    (h : sysOnly tr = true) (h1 : m.mr1 = m.latch_value) (h2 : m.mr2 = m.latch_value) :
    (measRun inc tr m).mr2 = m.latch_value := by
  induction tr generalizing m with
  | nil => simpa [measRun] using h2
  | cons st rest ih =>
    cases st with
    | sys re =>
        have h' : sysOnly rest = true := by
          simpa [sysOnly, isSysStep] using h
        have e := ih (sysEdge re m) h' (by simp [sysEdge]) (by simp [sysEdge, h1])
        simpa [measRun, measStep, sysEdge] using e
    | ctr b => simp [sysOnly, isSysStep] at h

/-- Without counter-domain edges, a read of the value register taken
after at least 2 sys-domain edges returns the frozen latch_value. -/
theorem sysOnly_read (inc : Nat) (tr : List MeasStep) (m : MeasState)
    (h : sysOnly tr = true) (hl : 2 ≤ tr.length) :
    (measRun inc tr m).mr2 = m.latch_value := by
  cases tr with
  | nil => simp at hl
  | cons st1 tr1 =>
    cases tr1 with
    | nil => simp at hl
    | cons st2 rest =>
      cases st1 with
      | ctr b => simp [sysOnly, isSysStep] at h
      | sys r1 =>
        cases st2 with
        | ctr b => simp [sysOnly, isSysStep] at h
        | sys r2 =>
          have h' : sysOnly rest = true := by
            simpa [sysOnly, isSysStep] using h
          have e := sysOnly_mr_settled inc rest (sysEdge r2 (sysEdge r1 m)) h'
            (by simp [sysEdge]) (by simp [sysEdge])
          simpa [measRun, measStep, sysEdge] using e

/-- C7: if the measured clock produces no edges across two successive
latch requests (traces tr1 then tr2 of sys-domain edges only, each long
enough for the transfer to complete), the counter never advances, the
control domain still functions, and the value read after each of the
two requests is the same constant. -/
theorem C7_stopped_clock (inc : Nat) (m : MeasState) (tr1 tr2 : List MeasStep)
    (h1 : sysOnly tr1 = true) (h2 : sysOnly tr2 = true)
    (hl1 : 2 ≤ tr1.length) (hl2 : 2 ≤ tr2.length) :
    (measRun inc (tr1 ++ tr2) m).counter = m.counter ∧
    (measRun inc tr1 m).mr2 = m.latch_value ∧
    (measRun inc (tr1 ++ tr2) m).mr2 = m.latch_value ∧
    (measRun inc tr1 m).mr2 = (measRun inc (tr1 ++ tr2) m).mr2 := by
  have h12 : sysOnly (tr1 ++ tr2) = true := by
    simp only [sysOnly, List.all_append, Bool.and_eq_true]
    exact ⟨h1, h2⟩
  have hc := sysOnly_frozen inc (tr1 ++ tr2) m h12
  have r1 := sysOnly_read inc tr1 m h1 hl1
  have r2 := sysOnly_read inc tr2 (measRun inc tr1 m) h2 hl2
  have hfz := sysOnly_frozen inc tr1 m h1
  have r12 : (measRun inc (tr1 ++ tr2) m).mr2 = m.latch_value := by
    rw [measRun_append]
    rw [r2, hfz.2]
  exact ⟨hc.1, r1, r12, by rw [r1, r12]⟩

/-- A mid-operation state used to instantiate C7 concretely. -/
def c7State : MeasState := { measInit with counter := 42, latch_value := 7 }

/-- C7 witness: two latch requests, each followed by a second sys edge,
with the measured clock fully stopped. -/
theorem C7_stopped_clock_witness :
    (measRun 1 ([MeasStep.sys true, MeasStep.sys false] ++ [MeasStep.sys true, MeasStep.sys false]) c7State).counter = c7State.counter ∧
    (measRun 1 [MeasStep.sys true, MeasStep.sys false] c7State).mr2 = c7State.latch_value ∧
    (measRun 1 ([MeasStep.sys true, MeasStep.sys false] ++ [MeasStep.sys true, MeasStep.sys false]) c7State).mr2 = c7State.latch_value ∧
    (measRun 1 [MeasStep.sys true, MeasStep.sys false] c7State).mr2 =
      (measRun 1 ([MeasStep.sys true, MeasStep.sys false] ++ [MeasStep.sys true, MeasStep.sys false]) c7State).mr2 :=
  C7_stopped_clock 1 c7State [MeasStep.sys true, MeasStep.sys false]
    [MeasStep.sys true, MeasStep.sys false] (by decide) (by decide) (by decide) (by decide)

/-! ## Theorems: latched value integrity (C2) -/

/-- Running a refined trace splits over append. -/
theorem bitRun_append (inc : Nat) (t1 t2 : List BitStep) (m : MeasState) :
    bitRun inc (t1 ++ t2) m = bitRun inc t2 (bitRun inc t1 m) := by
  induction t1 generalizing m with
  | nil => rfl
  | cons st rest ih => simp [bitRun, ih]

/-- Sampling a stable word, even per bit, returns the word. -/
theorem mixBits_self (v mask : Nat) : mixBits v v mask = v := by
  simp [mixBits]

/-- With the holding register undisturbed along a trace, it keeps its
value, and the MultiReg stages converge to it: after one sampling edge
the first stage holds it, after two both stages do. -/
theorem latch_stable (inc : Nat) (tr : List BitStep) (m : MeasState)
    (hd : latchDisturb inc tr m = 0) :
    (bitRun inc tr m).latch_value = m.latch_value ∧
    ((tr.filter isSamplingStep).length = 0 →
      (bitRun inc tr m).mr1 = m.mr1 ∧ (bitRun inc tr m).mr2 = m.mr2) ∧
    ((tr.filter isSamplingStep).length = 1 →
      (bitRun inc tr m).mr1 = m.latch_value ∧ (bitRun inc tr m).mr2 = m.mr1) ∧
    (2 ≤ (tr.filter isSamplingStep).length →
      (bitRun inc tr m).mr1 = m.latch_value ∧ (bitRun inc tr m).mr2 = m.latch_value) := by
  induction tr generalizing m with
  | nil =>
      refine ⟨rfl, fun _ => ⟨rfl, rfl⟩, fun h => ?_, fun h => ?_⟩
      · simp at h
      · simp at h
  | cons st rest ih =>
    cases st with
    | sys re =>
        simp only [latchDisturb] at hd
        have hB : latchDisturb inc rest (bitStep inc (BitStep.sys re) m) = 0 := by omega
        have ihh := ih (sysEdge re m) hB
        have hrun : bitRun inc (BitStep.sys re :: rest) m = bitRun inc rest (sysEdge re m) := rfl
        have hfl : ((BitStep.sys re :: rest).filter isSamplingStep).length =
            (rest.filter isSamplingStep).length + 1 := by
          simp [List.filter, isSamplingStep]
        refine ⟨?_, ?_, ?_, ?_⟩
        · rw [hrun, ihh.1]
          rfl
        · intro h0
          rw [hfl] at h0
          exact absurd h0 (Nat.succ_ne_zero _)
        · intro h1
          rw [hfl] at h1
          have h0 : (rest.filter isSamplingStep).length = 0 := by omega
          have hmm := ihh.2.1 h0
          rw [hrun]
          exact ⟨hmm.1, hmm.2⟩
        · intro h2
          rw [hfl] at h2
          rw [hrun]
          rcases Nat.lt_or_ge (rest.filter isSamplingStep).length 2 with hlt | hge
          · have h1 : (rest.filter isSamplingStep).length = 1 := by omega
            have hmm := ihh.2.2.1 h1
            exact ⟨hmm.1, hmm.2⟩
          · have hmm := ihh.2.2.2 hge
            exact ⟨hmm.1, hmm.2⟩
    | ctr rst_src =>
        simp only [latchDisturb] at hd
        have hB : latchDisturb inc rest (bitStep inc (BitStep.ctr rst_src) m) = 0 := by omega
        have hA : stepDisturb (BitStep.ctr rst_src) m = 0 := by omega
        cases hb : (measRst rst_src m || psOut m.ps) with
        | true => simp [stepDisturb, hb] at hA
        | false =>
          obtain ⟨hr, ho⟩ := Bool.or_eq_false_iff.mp hb
          have elv : (ctrEdge inc rst_src m).latch_value = m.latch_value := by
            simp [ctrEdge, hr, ho]
          have ihh := ih (ctrEdge inc rst_src m) hB
          have hrun : bitRun inc (BitStep.ctr rst_src :: rest) m =
              bitRun inc rest (ctrEdge inc rst_src m) := rfl
          have hfl : ((BitStep.ctr rst_src :: rest).filter isSamplingStep).length =
              (rest.filter isSamplingStep).length := by
            simp [List.filter, isSamplingStep]
          refine ⟨?_, ?_, ?_, ?_⟩
          · rw [hrun, ihh.1, elv]
          · intro h0
            rw [hfl] at h0
            have hmm := ihh.2.1 h0
            rw [hrun]
            exact ⟨hmm.1, hmm.2⟩
          · intro h1
            rw [hfl] at h1
            have hmm := ihh.2.2.1 h1
            rw [hrun]
            exact ⟨by rw [hmm.1, elv], hmm.2⟩
          · intro h2
            rw [hfl] at h2
            have hmm := ihh.2.2.2 h2
            rw [hrun]
            exact ⟨by rw [hmm.1, elv], by rw [hmm.2, elv]⟩
    | race re rst_src mask =>
        simp only [latchDisturb] at hd
        have hB : latchDisturb inc rest (bitStep inc (BitStep.race re rst_src mask) m) = 0 := by
          omega
        have hA : stepDisturb (BitStep.race re rst_src mask) m = 0 := by omega
        cases hb : (measRst rst_src m || psOut m.ps) with
        | true => simp [stepDisturb, hb] at hA
        | false =>
          obtain ⟨hr, ho⟩ := Bool.or_eq_false_iff.mp hb
          have elv : (raceEdge inc re rst_src mask m).latch_value = m.latch_value := by
            simp [raceEdge, ctrEdge, hr, ho]
          have emr1 : (raceEdge inc re rst_src mask m).mr1 = m.latch_value := by
            simp [raceEdge, ctrEdge, hr, ho, mixBits_self]
          have emr2 : (raceEdge inc re rst_src mask m).mr2 = m.mr1 := rfl
          have ihh := ih (raceEdge inc re rst_src mask m) hB
          have hrun : bitRun inc (BitStep.race re rst_src mask :: rest) m =
              bitRun inc rest (raceEdge inc re rst_src mask m) := rfl
          have hfl : ((BitStep.race re rst_src mask :: rest).filter isSamplingStep).length =
              (rest.filter isSamplingStep).length + 1 := by
            simp [List.filter, isSamplingStep]
          refine ⟨?_, ?_, ?_, ?_⟩
          · rw [hrun, ihh.1, elv]
          · intro h0
            rw [hfl] at h0
            exact absurd h0 (Nat.succ_ne_zero _)
          · intro h1
            rw [hfl] at h1
            have h0 : (rest.filter isSamplingStep).length = 0 := by omega
            have hmm := ihh.2.1 h0
            rw [hrun]
            exact ⟨by rw [hmm.1, emr1], by rw [hmm.2, emr2]⟩
          · intro h2
            rw [hfl] at h2
            rw [hrun]
            rcases Nat.lt_or_ge (rest.filter isSamplingStep).length 2 with hlt | hge
            · have h1 : (rest.filter isSamplingStep).length = 1 := by omega
              have hmm := ihh.2.2.1 h1
              exact ⟨by rw [hmm.1, elv], by rw [hmm.2, emr1]⟩
            · have hmm := ihh.2.2.2 hge
              exact ⟨by rw [hmm.1, elv], by rw [hmm.2, elv]⟩

/-- With the reset source never asserted and the reset synchronizer
clear, the holding register always equals the counter value captured at
the most recent latch-pulse arrival, or its starting content if none
has arrived: latch_value tracks the most recent capture, nothing else. -/
theorem latch_value_eq_lastLatch (inc : Nat) (tr : List BitStep) (m : MeasState)
    (h1 : m.ars1 = false) (h2 : m.ars2 = false)
    (hnr : tr.all noResetStep = true) :
    (bitRun inc tr m).latch_value = (lastLatch inc tr m).getD m.latch_value := by
  induction tr generalizing m with
  | nil => rfl
  | cons st rest ih =>
    have hnr2 : rest.all noResetStep = true := by
      simp only [List.all_cons, Bool.and_eq_true] at hnr
      exact hnr.2
    have hnrs : noResetStep st = true := by
      simp only [List.all_cons, Bool.and_eq_true] at hnr
      exact hnr.1
    cases st with
    | sys re =>
        have ihh := ih (sysEdge re m) h1 h2 hnr2
        cases hla : lastLatch inc rest (sysEdge re m) with
        | some v =>
            rw [hla] at ihh
            simp only [lastLatch, bitStep, hla, bitRun]
            simpa using ihh
        | none =>
            rw [hla] at ihh
            simp only [lastLatch, bitStep, hla, bitRun]
            simpa using ihh
    | ctr rst_src =>
        cases rst_src with
        | true => simp [noResetStep] at hnrs
        | false =>
          have hrst : measRst false m = false := by simp [measRst, h2]
          have e2 : (ctrEdge inc false m).ars2 = false := by simp [ctrEdge, h1]
          have ihh := ih (ctrEdge inc false m) rfl e2 hnr2
          cases ho : psOut m.ps with
          | false =>
              have elv : (ctrEdge inc false m).latch_value = m.latch_value := by
                simp [ctrEdge, hrst, ho]
              cases hla : lastLatch inc rest (ctrEdge inc false m) with
              | some v =>
                  rw [hla] at ihh
                  simp only [lastLatch, bitStep, hla, bitRun]
                  simpa using ihh
              | none =>
                  rw [hla] at ihh
                  simp only [lastLatch, bitStep, hla, bitRun, hrst, ho]
                  simp only [Option.getD_none] at ihh
                  rw [ihh, elv]
                  simp
          | true =>
              have elv : (ctrEdge inc false m).latch_value = m.counter := by
                simp [ctrEdge, hrst, ho]
              cases hla : lastLatch inc rest (ctrEdge inc false m) with
              | some v =>
                  rw [hla] at ihh
                  simp only [lastLatch, bitStep, hla, bitRun]
                  simpa using ihh
              | none =>
                  rw [hla] at ihh
                  simp only [lastLatch, bitStep, hla, bitRun, hrst, ho]
                  simp only [Option.getD_none] at ihh
                  rw [ihh, elv]
                  simp
    | race re rst_src mask =>
        cases rst_src with
        | true => simp [noResetStep] at hnrs
        | false =>
          have hrst : measRst false m = false := by simp [measRst, h2]
          have e2 : (raceEdge inc re false mask m).ars2 = false := by
            simp [raceEdge, ctrEdge, h1]
          have ihh := ih (raceEdge inc re false mask m) rfl e2 hnr2
          cases ho : psOut m.ps with
          | false =>
              have elv : (raceEdge inc re false mask m).latch_value = m.latch_value := by
                simp [raceEdge, ctrEdge, hrst, ho]
              cases hla : lastLatch inc rest (raceEdge inc re false mask m) with
              | some v =>
                  rw [hla] at ihh
                  simp only [lastLatch, bitStep, hla, bitRun]
                  simpa using ihh
              | none =>
                  rw [hla] at ihh
                  simp only [lastLatch, bitStep, hla, bitRun, hrst, ho]
                  simp only [Option.getD_none] at ihh
                  rw [ihh, elv]
                  simp
          | true =>
              have elv : (raceEdge inc re false mask m).latch_value = m.counter := by
                simp [raceEdge, ctrEdge, hrst, ho]
              cases hla : lastLatch inc rest (raceEdge inc re false mask m) with
              | some v =>
                  rw [hla] at ihh
                  simp only [lastLatch, bitStep, hla, bitRun]
                  simpa using ihh
              | none =>
                  rw [hla] at ihh
                  simp only [lastLatch, bitStep, hla, bitRun, hrst, ho]
                  simp only [Option.getD_none] at ihh
                  rw [ihh, elv]
                  simp

/-- Refined trace exhibiting a torn read: a first latch request captures
counter value 2 and completes its crossing; a second request's capture
of counter value 5 lands in the same instant as a sys sampling edge
(race, mask 1), so the first MultiReg stage picks bit 0 from the new
value and the rest from the old one. -/
def tornTrace : List BitStep :=
  [BitStep.sys true, BitStep.ctr false, BitStep.ctr false, BitStep.ctr false,
   BitStep.sys false, BitStep.sys false, BitStep.sys true,
   BitStep.ctr false, BitStep.ctr false, BitStep.race false false 1, BitStep.sys false]

/-- C2 counterexample: on the per-bit model of the section 4.3 transfer,
a read racing a latch update can observe a value — here 3 — that is a
bit-mixture of the two latched counter values 2 and 5 and that the
holding register never contained, refuting both parts of the claim: the
read neither reflects the most recent completed latch request nor is it
free of mixtures, because nothing in the design keeps latch_value
stable across the transfer window of an in-flight read. -/
theorem C2_torn_read :
    (bitRun 1 tornTrace measInit).mr2 = mixBits 2 5 1 ∧
    mixBits 2 5 1 = 3 ∧
    2 ∈ bitLatchHistory 1 tornTrace measInit ∧
    5 ∈ bitLatchHistory 1 tornTrace measInit ∧
    (bitRun 1 tornTrace measInit).mr2 ∉ bitLatchHistory 1 tornTrace measInit := by
  decide

/-- C2 amended: with the reset source clear, whenever the value register
is read after a window in which the holding register is undisturbed (no
latch capture or reset lands — section 4.3's stability precondition)
and which contains at least 2 sys-domain sampling edges, the read
returns — as one atomic, untorn word — exactly the counter value
captured at the most recent completed latch request (or the initial
content if none occurred). -/
theorem C2_most_recent_value (inc : Nat) (m : MeasState) (tr1 tr2 : List BitStep)
    (h1 : m.ars1 = false) (h2 : m.ars2 = false)
    (hnr : (tr1 ++ tr2).all noResetStep = true)
    (hd : latchDisturb inc tr2 (bitRun inc tr1 m) = 0)
    (hs : 2 ≤ (tr2.filter isSamplingStep).length) :
    (bitRun inc (tr1 ++ tr2) m).mr2 =
      (lastLatch inc (tr1 ++ tr2) m).getD m.latch_value := by
  have happ : bitRun inc (tr1 ++ tr2) m = bitRun inc tr2 (bitRun inc tr1 m) :=
    bitRun_append inc tr1 tr2 m
  have hst := latch_stable inc tr2 (bitRun inc tr1 m) hd
  have hll := latch_value_eq_lastLatch inc (tr1 ++ tr2) m h1 h2 hnr
  have hlv : (bitRun inc (tr1 ++ tr2) m).latch_value = (bitRun inc tr1 m).latch_value := by
    rw [happ]
    exact hst.1
  rw [happ, (hst.2.2.2 hs).2, ← hlv]
  exact hll

/-- Trace latching counter value 2 (request, three counter edges). -/
def c2Tr1 : List BitStep :=
  [BitStep.sys true, BitStep.ctr false, BitStep.ctr false, BitStep.ctr false]

/-- Undisturbed reading window with two sampling edges. -/
def c2Tr2 : List BitStep := [BitStep.sys false, BitStep.sys false]

/-- C2 amended witness: after one completed latch and a 2-sample stable
window, the read returns the captured counter value. -/
theorem C2_most_recent_value_witness :
    (bitRun 1 (c2Tr1 ++ c2Tr2) measInit).mr2 =
      (lastLatch 1 (c2Tr1 ++ c2Tr2) measInit).getD measInit.latch_value :=
  C2_most_recent_value 1 measInit c2Tr1 c2Tr2 rfl rfl (by decide) (by decide) (by decide)

/-! ## Theorems: pulse synchronizer exactness (C3) -/

/-- A settled synchronizer is a fixed point of destination edges. -/
theorem psDstEdge_settled (t : PulseSyncState) (ht : psSettled t) : psDstEdge t = t := by
  obtain ⟨h1, h2, h3⟩ := ht
  cases t
  simp_all [psDstEdge]

/-- A settled synchronizer emits no pulse. -/
theorem psOut_settled (t : PulseSyncState) (ht : psSettled t) : psOut t = false := by
  obtain ⟨h1, h2, h3⟩ := ht
  cases t
  simp_all [psOut]

/-- From a settled state, any number of destination edges emits nothing
and stays settled. -/
theorem psCount_settled (j : Nat) (t : PulseSyncState) (ht : psSettled t) :
    psCount j t = 0 ∧ psDstIter j t = t := by
  induction j with
  | zero => exact ⟨rfl, rfl⟩
  | succ j ih =>
    have hd := psDstEdge_settled t ht
    have ho := psOut_settled t ht
    refine ⟨?_, ?_⟩ <;> simp [psCount, psDstIter, hd, ho, ih]

/-- From a settled state, a single input pulse produces no output at the
next two destination edges, exactly one output pulse at the third, and
leaves the synchronizer settled again after any j + 3 destination
edges — with exactly one pulse in total over that window. -/
theorem ps_single_pulse (t : PulseSyncState) (ht : psSettled t) (j : Nat) :
    psOut (psSrcEdge true t) = false ∧
    psOut (psDstIter 1 (psSrcEdge true t)) = false ∧
    psOut (psDstIter 2 (psSrcEdge true t)) = true ∧
    psCount (j + 3) (psSrcEdge true t) = 1 ∧
    psSettled (psDstIter (j + 3) (psSrcEdge true t)) := by
  cases t with
  | mk ti s1 s2 tor =>
    obtain ⟨h1, h2, h3⟩ := ht
    dsimp at h1 h2 h3
    subst h1; subst h2; subst h3
    have h3j : j + 3 = Nat.succ (Nat.succ (Nat.succ j)) := rfl
    cases tor with
    | false =>
        have hst : psSettled (⟨true, true, true, true⟩ : PulseSyncState) := by
          exact ⟨rfl, rfl, rfl⟩
        have hc := psCount_settled j ⟨true, true, true, true⟩ hst
        refine ⟨by decide, by decide, by decide, ?_, ?_⟩
        · rw [h3j]
          simp only [psCount, psSrcEdge, psDstEdge, psOut]
          norm_num [hc.1]
        · rw [h3j]
          simp only [psDstIter, psSrcEdge, psDstEdge, Bool.false_xor, Bool.true_xor,
            Bool.xor_self, Bool.not_true]
          rw [hc.2]
          exact hst
    | true =>
        have hst : psSettled (⟨false, false, false, false⟩ : PulseSyncState) := by
          exact ⟨rfl, rfl, rfl⟩
        have hc := psCount_settled j ⟨false, false, false, false⟩ hst
        refine ⟨by decide, by decide, by decide, ?_, ?_⟩
        · rw [h3j]
          simp only [psCount, psSrcEdge, psDstEdge, psOut]
          norm_num [hc.1]
        · rw [h3j]
          simp only [psDstIter, psSrcEdge, psDstEdge, Bool.false_xor, Bool.true_xor,
            Bool.xor_self, Bool.not_true]
          rw [hc.2]
          exact hst

/-- With the reset synchronizer flops clear and the reset source low,
the latch_value update of source line 201 fires exactly when the
synchronized pulse does. -/
theorem latchWrites_eq_psCount (inc : Nat) (k : Nat) (m : MeasState)
    (h1 : m.ars1 = false) (h2 : m.ars2 = false) :
    latchWrites inc k m = psCount k m.ps := by
  induction k generalizing m with
  | zero => rfl
  | succ k ih =>
    have hr : measRst false m = false := by simp [measRst, h2]
    have e1 : (ctrEdge inc false m).ars1 = false := rfl
    have e2 : (ctrEdge inc false m).ars2 = false := by
      simp [ctrEdge, h1]
    have := ih (ctrEdge inc false m) e1 e2
    simp only [latchWrites, psCount, hr, Bool.not_false, Bool.true_and]
    rw [this]
    rfl

/-- C3: from a quiescent (settled) synchronizer, a single-cycle latch
request produces exactly one destination-domain pulse — never lost,
never duplicated — over any window of k ≥ 4 destination cycles, with
the pulse asserted at the third destination edge (latency within 2..4
destination cycles, none at the first two edges) and the synchronizer
settled again afterwards; consequently, a latch request to a
ClkMeasurement whose synchronizer has settled (which ≥ 4 idle
destination cycles guarantee) fires the latched-value update exactly
once in that window. -/
theorem C3_exactly_one_pulse (s : PulseSyncState) (k : Nat) (m : MeasState)
    (hs : psSettled s) (hk : 4 ≤ k)
    (h1 : m.ars1 = false) (h2 : m.ars2 = false) (hm : psSettled m.ps) :
    psCount k (psSrcEdge true s) = 1 ∧
    psOut (psSrcEdge true s) = false ∧
    psOut (psDstIter 1 (psSrcEdge true s)) = false ∧
    psOut (psDstIter 2 (psSrcEdge true s)) = true ∧
    psSettled (psDstIter k (psSrcEdge true s)) ∧
    latchWrites 1 k (sysEdge true m) = 1 := by
  obtain ⟨j, hj⟩ : ∃ j, k = j + 3 := ⟨k - 3, by omega⟩
  subst hj
  have hp := ps_single_pulse s hs j
  have hpm := ps_single_pulse m.ps hm j
  have hbr : latchWrites 1 (j + 3) (sysEdge true m) = psCount (j + 3) (sysEdge true m).ps :=
    latchWrites_eq_psCount 1 (j + 3) (sysEdge true m) h1 h2
  refine ⟨hp.2.2.2.1, hp.1, hp.2.1, hp.2.2.1, hp.2.2.2.2, ?_⟩
  rw [hbr]
  exact hpm.2.2.2.1

/-- C3 witness: a latch request from power-on, observed over a window of
4 destination cycles. -/
theorem C3_exactly_one_pulse_witness :
    psCount 4 (psSrcEdge true psInit) = 1 ∧
    psOut (psSrcEdge true psInit) = false ∧
    psOut (psDstIter 1 (psSrcEdge true psInit)) = false ∧
    psOut (psDstIter 2 (psSrcEdge true psInit)) = true ∧
    psSettled (psDstIter 4 (psSrcEdge true psInit)) ∧
    latchWrites 1 4 (sysEdge true measInit) = 1 :=
  C3_exactly_one_pulse psInit 4 measInit ⟨rfl, rfl, rfl⟩ (by decide) rfl rfl ⟨rfl, rfl, rfl⟩
